import Mathlib

/-!
# Verification of the serde_repr_base64 field adaptors

This development embeds the three `#[serde(with = ...)]` adaptor modules of
`src/lib.rs` — `base64_string`, `base64` and `base64_if_readable` — as Lean
functions and proves the specification's claims about them.

Modelling conventions:
* Rust byte slices are `List Nat` with every entry `< 256`; fixed-width
  plain-data elements of byte width `w` are `Nat` values `< 256 ^ w`, laid out
  little-endian (the convention of the platforms the crate's tests run on;
  the spec flags cross-endianness as a non-goal).
* The external base64 codec (`base64::engine::general_purpose::URL_SAFE`:
  padded URL-safe alphabet, canonical-padding decoding, trailing bits
  rejected) is embedded as `b64EncodeBytes` / `b64DecodeGo`, with the crate's
  `DecodeError` variants and `Display` messages.
* `serde` error values (`serde::de::Error::custom`) are modelled as the
  `Display` string handed to `custom`; the downstream format's own faithful
  transport of strings and native values is out of scope per the spec, so a
  serialized field is either the emitted text or the native value itself.
-/

/-- The 64 characters of the URL-safe base64 alphabet
(`base64::alphabet::URL_SAFE`). -/
def URL_SAFE_ALPHABET : String :=
  "ABCDEFGHIJKLMNOPQRSTUVWXYZabcdefghijklmnopqrstuvwxyz0123456789-_"

/-- Encode a 6-bit value as its URL-safe base64 alphabet character. -/
def b64EncodeChar (n : Nat) : Char :=
  if n < 26 then Char.ofNat (65 + n)
  else if n < 52 then Char.ofNat (97 + (n - 26))
  else if n < 62 then Char.ofNat (48 + (n - 52))
  else if n = 62 then '-'
  else '_'

/-- Decode a URL-safe base64 alphabet character to its 6-bit value;
`none` for every character outside the alphabet (including `=`). -/
def b64CharDecode (c : Char) : Option Nat :=
  let n := c.toNat
  if 65 ≤ n ∧ n ≤ 90 then some (n - 65)
  else if 97 ≤ n ∧ n ≤ 122 then some (n - 97 + 26)
  else if 48 ≤ n ∧ n ≤ 57 then some (n - 48 + 52)
  else if n = 45 then some 62
  else if n = 95 then some 63
  else none

/-- Padded URL-safe base64 encoding of a byte sequence
(`URL_SAFE.encode`): 3 input bytes per 4 output characters, `=`-padded
final quantum. -/
def b64EncodeBytes : List Nat → List Char
  | [] => []
  | [a] => [b64EncodeChar (a / 4), b64EncodeChar (a % 4 * 16), '=', '=']
  | [a, b] => [b64EncodeChar (a / 4), b64EncodeChar (a % 4 * 16 + b / 16),
      b64EncodeChar (b % 16 * 4), '=']
  | a :: b :: c :: rest =>
      b64EncodeChar (a / 4) :: b64EncodeChar (a % 4 * 16 + b / 16) ::
      b64EncodeChar (b % 16 * 4 + c / 64) :: b64EncodeChar (c % 64) ::
      b64EncodeBytes rest

/-- The base64 crate's `DecodeError`. -/
inductive DecodeError where
  | invalidByte (offset : Nat) (byte : Nat)
  | invalidLength (len : Nat)
  | invalidLastSymbol (offset : Nat) (byte : Nat)
  | invalidPadding
  deriving DecidableEq, Repr

/-- The `Display` rendering of `base64::DecodeError`. -/
def DecodeError.display : DecodeError → String
  | .invalidByte o b => "Invalid symbol " ++ toString b ++ ", offset " ++ toString o ++ "."
  | .invalidLength l => "Invalid input length: " ++ toString l
  | .invalidLastSymbol o b =>
      "Invalid last symbol " ++ toString b ++ ", offset " ++ toString o ++ "."
  | .invalidPadding => "Invalid padding"

/-- Canonical-padding URL-safe base64 decoding (`URL_SAFE.decode` with the
default `GeneralPurposeConfig`: `DecodePaddingMode::RequireCanonical` and
trailing bits rejected), processing 4-character quanta from offset `off`.
Padding may only close the final quantum, non-zero discarded bits of the last
symbol are rejected, and input whose length is not a multiple of 4 is
rejected. -/
def b64DecodeGo (off : Nat) : List Char → Except DecodeError (List Nat)
  | [] => .ok []
  | c1 :: c2 :: c3 :: c4 :: rest =>
    match b64CharDecode c1 with
    | none => .error (.invalidByte off c1.toNat)
    | some w =>
      match b64CharDecode c2 with
      | none => .error (.invalidByte (off + 1) c2.toNat)
      | some x =>
        if c3 = '=' then
          if c4 = '=' ∧ rest = [] then
            if x % 16 = 0 then .ok [w * 4 + x / 16]
            else .error (.invalidLastSymbol (off + 1) c2.toNat)
          else .error (.invalidByte (off + 2) 61)
        else
          match b64CharDecode c3 with
          | none => .error (.invalidByte (off + 2) c3.toNat)
          | some y =>
            if c4 = '=' then
              if rest = [] then
                if y % 4 = 0 then .ok [w * 4 + x / 16, x % 16 * 16 + y / 4]
                else .error (.invalidLastSymbol (off + 2) c3.toNat)
              else .error (.invalidByte (off + 3) 61)
            else
              match b64CharDecode c4 with
              | none => .error (.invalidByte (off + 3) c4.toNat)
              | some z =>
                match b64DecodeGo (off + 4) rest with
                | .ok bs =>
                    .ok ((w * 4 + x / 16) :: (x % 16 * 16 + y / 4) :: (y % 4 * 64 + z) :: bs)
                | .error e => .error e
  | _ => .error .invalidPadding

/-- Model of `URL_SAFE.decode` on a string's characters. -/
def b64DecodeString (s : String) : Except DecodeError (List Nat) :=
  b64DecodeGo 0 s.data

/-- Model of `URL_SAFE.encode` of a byte sequence, as a string. -/
def b64EncodeString (l : List Nat) : String :=
  ⟨b64EncodeBytes l⟩

-- Basic facts about the character tables.

theorem b64CharDecode_encode : ∀ n, n < 64 → b64CharDecode (b64EncodeChar n) = some n := by
  decide

theorem b64EncodeChar_ne_pad : ∀ n, n < 64 → b64EncodeChar n ≠ '=' := by
  decide

theorem b64CharDecode_pad : b64CharDecode '=' = none := by
  decide

theorem b64EncodeChar_mem_alphabet :
    ∀ n, n < 64 → b64EncodeChar n ∈ URL_SAFE_ALPHABET.data := by
  decide

/-! ## The bytemuck cast layer

`bytemuck::cast_slice::<U, u8>` flattens a slice of `w`-byte plain-data
elements into its underlying bytes; `bytemuck::try_cast_slice::<u8, U>`
reinterprets a byte slice as `U`-elements, failing with
`PodCastError::OutputSliceWouldHaveSlop` when the byte length is not a
multiple of `w` (bytemuck's `Display` for `PodCastError` prints the variant
name). The runtime pointer-alignment check of `try_cast_slice` is
address-dependent and is modelled as passing; see the development's
discussion of the alignment claim. -/

/-- The `w` little-endian bytes of an element value. -/
def natToBytesLE : Nat → Nat → List Nat
  | 0, _ => []
  | w + 1, n => n % 256 :: natToBytesLE w (n / 256)

/-- A little-endian byte chunk read back as an element value. -/
def chunkToNatLE : List Nat → Nat
  | [] => 0
  | b :: rest => b + 256 * chunkToNatLE rest

/-- Model of `bytemuck::cast_slice::<U, u8>`: the flat byte view of a slice of
`w`-byte elements. -/
def castSliceElems (w : Nat) : List Nat → List Nat
  | [] => []
  | e :: rest => natToBytesLE w e ++ castSliceElems w rest

/-- Group a byte list into `w`-byte little-endian element values, consuming
one chunk per unit of fuel. -/
def castBytesToElemsGo (w : Nat) : Nat → List Nat → List Nat
  | _, [] => []
  | 0, _ => []
  | fuel + 1, l => chunkToNatLE (l.take w) :: castBytesToElemsGo w fuel (l.drop w)

/-- Group a byte list into `w`-byte little-endian element values (for
`w > 0` the byte length is enough fuel: every chunk consumes at least one
byte). -/
def castBytesToElems (w : Nat) (l : List Nat) : List Nat :=
  castBytesToElemsGo w l.length l

/-- Model of `bytemuck::try_cast_slice::<u8, U>` on a byte slice, for a target element
width `w`: zero-sized targets are a `SizeMismatch`, a byte length that is not
a multiple of `w` is `OutputSliceWouldHaveSlop`, otherwise the bytes are
reinterpreted as `w`-byte elements. -/
def tryCastSliceBytes (w : Nat) (l : List Nat) : Except String (List Nat) :=
  if w = 0 then .error "SizeMismatch"
  else if l.length % w = 0 then .ok (castBytesToElems w l)
  else .error "OutputSliceWouldHaveSlop"

/-! ## UTF-8 validation (`String::from_utf8`)

`core::str::run_utf8_validation`: on failure it reports the index of the
first invalid sequence and, when the input did not simply end early, the
length of the invalid sequence; `FromUtf8Error`'s `Display` renders these. -/

/-- Is `b` a UTF-8 continuation byte (`0x80..=0xBF`)? -/
def isUtf8Cont (b : Nat) : Bool :=
  128 ≤ b && b < 192

/-- UTF-8 validation from index `i`: `none` when valid, otherwise
`some (index, some len)` for an invalid sequence of `len` bytes at `index`,
or `some (index, none)` for an incomplete final sequence at `index`. -/
def utf8CheckGo (i : Nat) : List Nat → Option (Nat × Option Nat)
  | [] => none
  | b :: rest =>
    if b < 128 then utf8CheckGo (i + 1) rest
    else if b < 194 then some (i, some 1)
    else if b < 224 then
      match rest with
      | [] => some (i, none)
      | b2 :: rest2 =>
        if isUtf8Cont b2 then utf8CheckGo (i + 2) rest2 else some (i, some 1)
    else if b < 240 then
      match rest with
      | [] => some (i, none)
      | [b2] =>
        if (if b = 224 then 160 ≤ b2 && b2 < 192
            else if b = 237 then 128 ≤ b2 && b2 < 160
            else isUtf8Cont b2) then some (i, none) else some (i, some 1)
      | b2 :: b3 :: rest2 =>
        if (if b = 224 then 160 ≤ b2 && b2 < 192
            else if b = 237 then 128 ≤ b2 && b2 < 160
            else isUtf8Cont b2) then
          if isUtf8Cont b3 then utf8CheckGo (i + 3) rest2 else some (i, some 2)
        else some (i, some 1)
    else if b < 245 then
      match rest with
      | [] => some (i, none)
      | [b2] =>
        if (if b = 240 then 144 ≤ b2 && b2 < 192
            else if b = 244 then 128 ≤ b2 && b2 < 144
            else isUtf8Cont b2) then some (i, none) else some (i, some 1)
      | [b2, b3] =>
        if (if b = 240 then 144 ≤ b2 && b2 < 192
            else if b = 244 then 128 ≤ b2 && b2 < 144
            else isUtf8Cont b2) then
          if isUtf8Cont b3 then some (i, none) else some (i, some 2)
        else some (i, some 1)
      | b2 :: b3 :: b4 :: rest2 =>
        if (if b = 240 then 144 ≤ b2 && b2 < 192
            else if b = 244 then 128 ≤ b2 && b2 < 144
            else isUtf8Cont b2) then
          if isUtf8Cont b3 then
            if isUtf8Cont b4 then utf8CheckGo (i + 4) rest2 else some (i, some 3)
          else some (i, some 2)
        else some (i, some 1)
    else some (i, some 1)

/-- UTF-8 validation of a byte sequence. -/
def utf8Check (l : List Nat) : Option (Nat × Option Nat) :=
  utf8CheckGo 0 l

/-- The `Display` rendering of the `FromUtf8Error` produced by `String::from_utf8`. -/
def utf8ErrorDisplay : Nat × Option Nat → String
  | (i, some n) =>
      "invalid utf-8 sequence of " ++ toString n ++ " bytes from index " ++ toString i
  | (i, none) => "incomplete utf-8 byte sequence from index " ++ toString i

/-- Model of `String::from_utf8`: validates the bytes; a Rust `String` is modelled by
its (valid) UTF-8 byte sequence, so success returns the bytes unchanged. -/
def stringFromUtf8 (l : List Nat) : Except String (List Nat) :=
  match utf8Check l with
  | none => .ok l
  | some e => .error (utf8ErrorDisplay e)

/-! ## The three adaptor modules of `src/lib.rs`

A `Serializer`/`Deserializer` pair is modelled by what it transports for one
field: the emitted text for `serialize_str`/`Cow<str>::deserialize`, or the
native value itself when the adaptor delegates to the type's own serde
implementations (those implementations belong to the external framework,
which the spec assumes transports them faithfully). A generic bound
`T: Borrow<[U]>` is represented by the borrowed element slice `borrow item`,
and `T: TryFrom<&[U], Error: Display>` by a function
`tryFrom : List Nat → Except String T` whose error is the `Display` string.
`serde::de::Error::custom` keeps the message, so error values are the
messages themselves. -/

/-- What the downstream format transports for one field: the text written by
`serialize_str`, or the value handed to its own native serde implementation. -/
inductive Wire (T : Type) where
  | text (s : String)
  | native (v : T)
  deriving DecidableEq, Repr

namespace base64_string

/-- Model of `base64_string::serialize`: base64-encode the UTF-8 bytes of
`item.as_ref()` and emit the result with `serialize_str`. `item` is the
string's byte sequence. -/
def serialize (item : List Nat) : String :=
  b64EncodeString item

/-- Model of `base64_string::deserialize`: read a `String`, base64-decode it
(`DecodeError` surfaces through `Error::custom`), validate the bytes as UTF-8
(`FromUtf8Error` surfaces through `Error::custom`), and convert with
`T::try_from` (its error surfaces through `Error::custom`). -/
def deserialize {T : Type} (tryFrom : List Nat → Except String T) (s : String) :
    Except String T :=
  match b64DecodeString s with
  | .error e => .error e.display
  | .ok bytes =>
    match stringFromUtf8 bytes with
    | .error m => .error m
    | .ok str => tryFrom str

end base64_string

namespace base64

/-- Model of `base64::serialize`: view the borrowed `[U]`-slice as bytes with
`bytemuck::cast_slice`, base64-encode, and emit with `serialize_str`.
`item` is the borrowed slice of `w`-byte elements. -/
def serialize (w : Nat) (item : List Nat) : String :=
  b64EncodeString (castSliceElems w item)

/-- Model of `base64::deserialize`: read a `Cow<str>`; if base64-decoding fails,
report `"{s} is not a valid utf-8 string"`; reinterpret the decoded bytes as
`[U]` with `bytemuck::try_cast_slice` (its `PodCastError` surfaces through
`Error::custom`); convert with `T::try_from` (its error surfaces through
`Error::custom`). -/
def deserialize {T : Type} (w : Nat) (tryFrom : List Nat → Except String T)
    (s : String) : Except String T :=
  match b64DecodeString s with
  | .error _ => .error (s ++ " is not a valid utf-8 string")
  | .ok decoded =>
    match tryCastSliceBytes w decoded with
    | .error e => .error e
    | .ok elems => tryFrom elems

end base64

namespace base64_if_readable

/-- Model of `base64_if_readable::serialize`: when `serializer.is_human_readable()`,
behave as `base64::serialize`; otherwise delegate to `item.serialize`, i.e.
the value's own native serialization. -/
def serialize {T : Type} (humanReadable : Bool) (w : Nat) (borrow : T → List Nat)
    (item : T) : Wire T :=
  if humanReadable then .text (b64EncodeString (castSliceElems w (borrow item)))
  else .native item

/-- Model of `base64_if_readable::deserialize`: when `deserializer.is_human_readable()`,
behave as `base64::deserialize` (a native wire value is a type error for
`Cow<str>::deserialize`); otherwise delegate to `T::deserialize`, the value's
own native deserialization, which returns the natively transported value. -/
def deserialize {T : Type} (humanReadable : Bool) (w : Nat)
    (tryFrom : List Nat → Except String T) (input : Wire T) : Except String T :=
  if humanReadable then
    match input with
    | .text s =>
      match b64DecodeString s with
      | .error _ => .error (s ++ " is not a valid utf-8 string")
      | .ok decoded =>
        match tryCastSliceBytes w decoded with
        | .error e => .error e
        | .ok elems => tryFrom elems
    | .native _ => .error "invalid type: expected a string"
  else
    match input with
    | .text _ => .error "invalid type: unexpected string"
    | .native v => .ok v

end base64_if_readable

theorem natToBytesLE_length (w : Nat) : ∀ n, (natToBytesLE w n).length = w := by
  induction w with
  | zero => intro n; rfl
  | succ w ih => intro n; simp [natToBytesLE, ih]

theorem chunkToNatLE_natToBytesLE (w : Nat) :
    ∀ n, n < 256 ^ w → chunkToNatLE (natToBytesLE w n) = n := by
  induction w with
  | zero =>
    intro n h
    simp [pow_zero] at h
    simp [natToBytesLE, chunkToNatLE, h]
  | succ w ih =>
    intro n h
    have hd : n / 256 < 256 ^ w := by
      rw [Nat.div_lt_iff_lt_mul (by norm_num)]
      calc n < 256 ^ (w + 1) := h
        _ = 256 ^ w * 256 := by ring
    simp only [natToBytesLE, chunkToNatLE, ih (n / 256) hd]
    omega

theorem mem_castSliceElems_lt (w : Nat) (l : List Nat) :
    ∀ b ∈ castSliceElems w l, b < 256 := by
  induction l with
  | nil => intro b hb; simp [castSliceElems] at hb
  | cons e rest ih =>
    intro b hb
    simp only [castSliceElems, List.mem_append] at hb
    rcases hb with hb | hb
    · clear ih
      induction w generalizing e with
      | zero => simp [natToBytesLE] at hb
      | succ w ihw =>
        simp only [natToBytesLE, List.mem_cons] at hb
        rcases hb with hb | hb
        · omega
        · exact ihw (e / 256) hb
    · exact ih b hb

theorem castSliceElems_length (w : Nat) (l : List Nat) :
    (castSliceElems w l).length = w * l.length := by
  induction l with
  | nil => simp [castSliceElems]
  | cons e rest ih =>
    simp [castSliceElems, natToBytesLE_length, ih]
    ring

theorem castBytesToElemsGo_castSliceElems (w : Nat) (hw : 0 < w) (l : List Nat)
    (h : ∀ e ∈ l, e < 256 ^ w) :
    ∀ fuel, l.length ≤ fuel → castBytesToElemsGo w fuel (castSliceElems w l) = l := by
  induction l with
  | nil =>
    intro fuel _
    cases fuel <;> rfl
  | cons e rest ih =>
    intro fuel hfuel
    have hlen : (natToBytesLE w e).length = w := natToBytesLE_length w e
    obtain ⟨f, rfl⟩ : ∃ f, fuel = f + 1 := by
      cases fuel
      · simp at hfuel
      · exact ⟨_, rfl⟩
    have hne : natToBytesLE w e ++ castSliceElems w rest ≠ [] := by
      intro hc
      have := congrArg List.length hc
      simp [hlen] at this
      omega
    rw [castSliceElems]
    rw [show castBytesToElemsGo w (f + 1) (natToBytesLE w e ++ castSliceElems w rest)
        = chunkToNatLE ((natToBytesLE w e ++ castSliceElems w rest).take w) ::
          castBytesToElemsGo w f ((natToBytesLE w e ++ castSliceElems w rest).drop w) from by
      match hm : natToBytesLE w e ++ castSliceElems w rest with
      | [] => exact absurd hm hne
      | x :: xs => rfl]
    rw [List.take_left' hlen, List.drop_left' hlen]
    rw [chunkToNatLE_natToBytesLE w e (h e (by simp)),
      ih (fun x hx => h x (by simp [hx])) f (by simpa using hfuel)]

theorem castBytesToElems_castSliceElems (w : Nat) (hw : 0 < w) (l : List Nat)
    (h : ∀ e ∈ l, e < 256 ^ w) :
    castBytesToElems w (castSliceElems w l) = l := by
  apply castBytesToElemsGo_castSliceElems w hw l h
  rw [castSliceElems_length]
  calc l.length = 1 * l.length := (one_mul _).symm
    _ ≤ w * l.length := Nat.mul_le_mul_right _ hw

theorem b64DecodeGo_encode (l : List Nat) (h : ∀ b ∈ l, b < 256) :
    ∀ off, b64DecodeGo off (b64EncodeBytes l) = .ok l := by
  induction l using b64EncodeBytes.induct with
  | case1 => intro off; rfl
  | case2 a =>
    intro off
    have ha : a < 256 := h a (by simp)
    rw [b64EncodeBytes]
    simp only [b64DecodeGo, b64CharDecode_encode (a / 4) (by omega),
      b64CharDecode_encode (a % 4 * 16) (by omega), reduceIte, and_self, if_true,
      Except.ok.injEq, List.cons.injEq, and_true]
    rw [if_pos (by omega : a % 4 * 16 % 16 = 0)]
    simp only [Except.ok.injEq, List.cons.injEq, and_true]
    omega
  | case3 a b =>
    intro off
    have ha : a < 256 := h a (by simp)
    have hb : b < 256 := h b (by simp)
    rw [b64EncodeBytes]
    simp only [b64DecodeGo, b64CharDecode_encode (a / 4) (by omega),
      b64CharDecode_encode (a % 4 * 16 + b / 16) (by omega),
      b64CharDecode_encode (b % 16 * 4) (by omega),
      b64EncodeChar_ne_pad (b % 16 * 4) (by omega), reduceIte, and_self, if_true,
      if_false, ite_false, ite_true]
    rw [if_pos (by omega : b % 16 * 4 % 4 = 0)]
    simp only [Except.ok.injEq, List.cons.injEq, and_true]
    omega
  | case4 a b c rest ih =>
    intro off
    have ha : a < 256 := h a (by simp)
    have hb : b < 256 := h b (by simp)
    have hc : c < 256 := h c (by simp)
    have hrest : ∀ x ∈ rest, x < 256 := fun x hx => h x (by simp [hx])
    rw [b64EncodeBytes]
    simp only [b64DecodeGo, b64CharDecode_encode (a / 4) (by omega),
      b64CharDecode_encode (a % 4 * 16 + b / 16) (by omega),
      b64CharDecode_encode (b % 16 * 4 + c / 64) (by omega),
      b64CharDecode_encode (c % 64) (by omega),
      b64EncodeChar_ne_pad (b % 16 * 4 + c / 64) (by omega),
      b64EncodeChar_ne_pad (c % 64) (by omega), reduceIte, and_self, if_true,
      if_false, ite_false, ite_true]
    simp only [ih hrest (off + 4), Except.ok.injEq, List.cons.injEq, and_true, true_and]
    omega

theorem b64DecodeString_encode (l : List Nat) (h : ∀ b ∈ l, b < 256) :
    b64DecodeString (b64EncodeString l) = .ok l :=
  b64DecodeGo_encode l h 0

theorem b64EncodeBytes_length_mod4 (l : List Nat) :
    (b64EncodeBytes l).length % 4 = 0 := by
  induction l using b64EncodeBytes.induct with
  | case1 => rfl
  | case2 a => simp [b64EncodeBytes]
  | case3 a b => simp [b64EncodeBytes]
  | case4 a b c rest ih =>
    simp only [b64EncodeBytes, List.length_cons]
    omega

theorem b64EncodeBytes_chars (l : List Nat) (h : ∀ b ∈ l, b < 256) :
    ∀ c ∈ b64EncodeBytes l, c ∈ URL_SAFE_ALPHABET.data ∨ c = '=' := by
  induction l using b64EncodeBytes.induct with
  | case1 => intro c hc; simp [b64EncodeBytes] at hc
  | case2 a =>
    have ha : a < 256 := h a (by simp)
    intro c hc
    simp only [b64EncodeBytes, List.mem_cons, List.not_mem_nil, or_false] at hc
    rcases hc with rfl | rfl | rfl | rfl
    · exact .inl (b64EncodeChar_mem_alphabet _ (by omega))
    · exact .inl (b64EncodeChar_mem_alphabet _ (by omega))
    · exact .inr rfl
    · exact .inr rfl
  | case3 a b =>
    have ha : a < 256 := h a (by simp)
    have hb : b < 256 := h b (by simp)
    intro c hc
    simp only [b64EncodeBytes, List.mem_cons, List.not_mem_nil, or_false] at hc
    rcases hc with rfl | rfl | rfl | rfl
    · exact .inl (b64EncodeChar_mem_alphabet _ (by omega))
    · exact .inl (b64EncodeChar_mem_alphabet _ (by omega))
    · exact .inl (b64EncodeChar_mem_alphabet _ (by omega))
    · exact .inr rfl
  | case4 a b c rest ih =>
    have ha : a < 256 := h a (by simp)
    have hb : b < 256 := h b (by simp)
    have hc' : c < 256 := h c (by simp)
    have hrest : ∀ x ∈ rest, x < 256 := fun x hx => h x (by simp [hx])
    intro d hd
    simp only [b64EncodeBytes, List.mem_cons] at hd
    rcases hd with rfl | rfl | rfl | rfl | hd
    · exact .inl (b64EncodeChar_mem_alphabet _ (by omega))
    · exact .inl (b64EncodeChar_mem_alphabet _ (by omega))
    · exact .inl (b64EncodeChar_mem_alphabet _ (by omega))
    · exact .inl (b64EncodeChar_mem_alphabet _ (by omega))
    · exact ih hrest d hd

/-- Model of `<[U; n] as TryFrom<&[U]>>::try_from`: succeeds exactly on slices of
length `n`; otherwise the `Display` message of `TryFromSliceError`. -/
def arrayTryFrom (n : Nat) (l : List Nat) : Except String (List Nat) :=
  if l.length = n then .ok l else .error "could not convert slice to array"

/-- C1: for every legal Source Value of a supported shape, decode ∘ encode is
the identity: for the binary-sequence adaptor through its textual wire, for
the readability-aware adaptor independently through its textual and its
binary wire, and for the string adaptor on any valid-UTF-8 string. -/
theorem C1_round_trip {T S : Type} (w : Nat) (hw : 0 < w)
    (borrow : T → List Nat) (tryFrom : List Nat → Except String T) (item : T)
    (helems : ∀ e ∈ borrow item, e < 256 ^ w)
    (hlegal : tryFrom (borrow item) = .ok item)
    (strTryFrom : List Nat → Except String S) (str : S) (sbytes : List Nat)
    (hutf : utf8Check sbytes = none) (hsb : ∀ b ∈ sbytes, b < 256)
    (hslegal : strTryFrom sbytes = .ok str) :
    base64.deserialize w tryFrom (base64.serialize w (borrow item)) = .ok item ∧
    base64_if_readable.deserialize true w tryFrom
      (base64_if_readable.serialize true w borrow item) = .ok item ∧
    base64_if_readable.deserialize false w tryFrom
      (base64_if_readable.serialize false w borrow item) = .ok item ∧
    base64_string.deserialize strTryFrom (base64_string.serialize sbytes) = .ok str := by
  have hbytes : ∀ b ∈ castSliceElems w (borrow item), b < 256 :=
    mem_castSliceElems_lt w (borrow item)
  have hdec := b64DecodeString_encode _ hbytes
  have hcast : tryCastSliceBytes w (castSliceElems w (borrow item)) = .ok (borrow item) := by
    rw [tryCastSliceBytes, if_neg (by omega : ¬w = 0),
      if_pos (by rw [castSliceElems_length]; exact Nat.mul_mod_right w _),
      castBytesToElems_castSliceElems w hw _ helems]
  refine ⟨?_, ?_, ?_, ?_⟩
  · simp only [base64.serialize, base64.deserialize, hdec, hcast]
    exact hlegal
  · simp only [base64_if_readable.serialize, base64_if_readable.deserialize, if_true,
      ite_true, hdec, hcast]
    exact hlegal
  · simp only [base64_if_readable.serialize, base64_if_readable.deserialize, if_false,
      ite_false, Bool.false_eq_true]
  · simp only [base64_string.serialize, base64_string.deserialize,
      b64DecodeString_encode sbytes hsb, stringFromUtf8, hutf]
    exact hslegal

/-- C1 witness: a 16-bit-element vector `[300, 65535]` and the string
`"Hé"` (UTF-8 bytes `[72, 195, 169]`) round-trip through every path. -/
theorem C1_round_trip_witness :
    base64.deserialize 2 Except.ok (base64.serialize 2 [300, 65535]) = .ok [300, 65535] ∧
    base64_if_readable.deserialize true 2 Except.ok
      (base64_if_readable.serialize true 2 id [300, 65535]) = .ok [300, 65535] ∧
    base64_if_readable.deserialize false 2 Except.ok
      (base64_if_readable.serialize false 2 id [300, 65535]) = .ok [300, 65535] ∧
    base64_string.deserialize Except.ok (base64_string.serialize [72, 195, 169])
      = .ok [72, 195, 169] :=
  C1_round_trip 2 (by decide) id Except.ok [300, 65535] (by decide) rfl
    Except.ok [72, 195, 169] [72, 195, 169] (by decide) (by decide) rfl

/-- C2: the readability-aware adaptor emits the base64 text of the value's
bytes exactly when the serializer is human-readable and otherwise delegates
to the value's native serialization; its deserialize base64-decodes a text
value exactly when the deserializer is human-readable and otherwise delegates
to the type's native deserialization; both branches decode back to the
identical value. -/
theorem C2_format_discrimination {T : Type} (w : Nat) (hw : 0 < w)
    (borrow : T → List Nat) (tryFrom : List Nat → Except String T) (item : T)
    (helems : ∀ e ∈ borrow item, e < 256 ^ w)
    (hlegal : tryFrom (borrow item) = .ok item) :
    base64_if_readable.serialize true w borrow item
      = .text (b64EncodeString (castSliceElems w (borrow item))) ∧
    base64_if_readable.serialize false w borrow item = .native item ∧
    (∀ s : String, base64_if_readable.deserialize true w tryFrom (.text s)
      = base64.deserialize w tryFrom s) ∧
    (∀ v : T, base64_if_readable.deserialize false w tryFrom (.native v) = .ok v) ∧
    base64_if_readable.deserialize true w tryFrom
      (base64_if_readable.serialize true w borrow item) = .ok item ∧
    base64_if_readable.deserialize false w tryFrom
      (base64_if_readable.serialize false w borrow item) = .ok item := by
  have hbytes : ∀ b ∈ castSliceElems w (borrow item), b < 256 :=
    mem_castSliceElems_lt w (borrow item)
  have hdec := b64DecodeString_encode _ hbytes
  have hcast : tryCastSliceBytes w (castSliceElems w (borrow item)) = .ok (borrow item) := by
    rw [tryCastSliceBytes, if_neg (by omega : ¬w = 0),
      if_pos (by rw [castSliceElems_length]; exact Nat.mul_mod_right w _),
      castBytesToElems_castSliceElems w hw _ helems]
  refine ⟨rfl, rfl, fun s => rfl, fun v => rfl, ?_, ?_⟩
  · simp only [base64_if_readable.serialize, base64_if_readable.deserialize, if_true,
      ite_true, hdec, hcast]
    exact hlegal
  · simp only [base64_if_readable.serialize, base64_if_readable.deserialize, if_false,
      ite_false, Bool.false_eq_true]

/-- C2 witness: the discrimination law at the byte vector `[123, 12, 84, 2]`
with byte-width elements. -/
theorem C2_format_discrimination_witness :
    base64_if_readable.serialize true 1 id [123, 12, 84, 2]
      = .text (b64EncodeString (castSliceElems 1 [123, 12, 84, 2])) ∧
    base64_if_readable.serialize false 1 id [123, 12, 84, 2] = .native [123, 12, 84, 2] ∧
    (∀ s : String, base64_if_readable.deserialize true 1 Except.ok (.text s)
      = base64.deserialize 1 Except.ok s) ∧
    (∀ v : List Nat, base64_if_readable.deserialize false 1 Except.ok (.native v) = .ok v) ∧
    base64_if_readable.deserialize true 1 Except.ok
      (base64_if_readable.serialize true 1 id [123, 12, 84, 2]) = .ok [123, 12, 84, 2] ∧
    base64_if_readable.deserialize false 1 Except.ok
      (base64_if_readable.serialize false 1 id [123, 12, 84, 2]) = .ok [123, 12, 84, 2] :=
  C2_format_discrimination 1 (by decide) id Except.ok [123, 12, 84, 2] (by decide) rfl

/-- C6: the binary-sequence adaptor encodes an empty element sequence to the
empty base64 string, and decodes the empty string back to the empty sequence
of the target type. -/
theorem C6_empty {T : Type} (w : Nat) (hw : 0 < w)
    (tryFrom : List Nat → Except String T) (empty : T)
    (h : tryFrom [] = .ok empty) :
    base64.serialize w [] = "" ∧ base64.deserialize w tryFrom "" = .ok empty := by
  constructor
  · rfl
  · have hcast : tryCastSliceBytes w [] = .ok [] := by
      rw [tryCastSliceBytes, if_neg (by omega : ¬w = 0)]
      simp [castBytesToElems, castBytesToElemsGo]
    simp only [base64.deserialize, show b64DecodeString "" = .ok [] from rfl, hcast]
    exact h

/-- C6 witness: the empty byte vector and the empty 8-byte-element vector. -/
theorem C6_empty_witness :
    (base64.serialize 1 [] = "" ∧ base64.deserialize 1 Except.ok "" = .ok []) ∧
    (base64.serialize 8 [] = "" ∧ base64.deserialize 8 Except.ok "" = .ok []) :=
  ⟨C6_empty 1 (by decide) Except.ok [] rfl, C6_empty 8 (by decide) Except.ok [] rfl⟩

/-- C3 counterexample: on the malformed text `"!!!not-base64!!!"` the string
adaptor does fail, but its error message is the base64 crate's
`DecodeError::InvalidByte` display, which does not contain the offending
input text. -/
theorem C3_counterexample :
    base64_string.deserialize Except.ok "!!!not-base64!!!"
      = .error "Invalid symbol 33, offset 0." ∧
    ¬ List.IsInfix "!!!not-base64!!!".data "Invalid symbol 33, offset 0.".data := by
  constructor
  · rfl
  · decide

/-- C3 (amended): on text that is not valid base64 all three adaptors fail;
the two binary-sequence adaptors report `"{s} is not a valid utf-8 string"`,
which contains the offending input text, while the string adaptor reports the
base64 decode error's own display, which names the offending symbol and
offset rather than the input text. -/
theorem C3_malformed {T S : Type} (w : Nat) (tryFrom : List Nat → Except String T)
    (strTryFrom : List Nat → Except String S) (s : String) (e : DecodeError)
    (hbad : b64DecodeString s = .error e) :
    base64.deserialize w tryFrom s = .error (s ++ " is not a valid utf-8 string") ∧
    base64_if_readable.deserialize true w tryFrom (.text s)
      = .error (s ++ " is not a valid utf-8 string") ∧
    base64_string.deserialize strTryFrom s = .error e.display ∧
    List.IsInfix s.data (s ++ " is not a valid utf-8 string").data := by
  refine ⟨?_, ?_, ?_, ?_⟩
  · simp only [base64.deserialize, hbad]
  · simp only [base64_if_readable.deserialize, if_true, ite_true, hbad]
  · simp only [base64_string.deserialize, hbad]
  · rw [String.data_append]
    exact (List.prefix_append _ _).isInfix

/-- C3 witness: the three adaptors at `"!!!not-base64!!!"`. -/
theorem C3_malformed_witness :
    base64.deserialize 1 Except.ok "!!!not-base64!!!"
      = .error "!!!not-base64!!! is not a valid utf-8 string" ∧
    base64_if_readable.deserialize true 1 Except.ok (.text "!!!not-base64!!!")
      = .error "!!!not-base64!!! is not a valid utf-8 string" ∧
    base64_string.deserialize Except.ok "!!!not-base64!!!"
      = .error (DecodeError.invalidByte 0 33).display ∧
    List.IsInfix "!!!not-base64!!!".data
      ("!!!not-base64!!!" ++ " is not a valid utf-8 string").data :=
  C3_malformed 1 Except.ok Except.ok "!!!not-base64!!!" (.invalidByte 0 33) rfl

/-- C4: when the decoded byte length is not a multiple of the element width,
both binary-sequence adaptors fail with bytemuck's slop error instead of
truncating or padding. -/
theorem C4_length_mismatch {T : Type} (w : Nat) (hw : w ≠ 0)
    (tryFrom : List Nat → Except String T) (s : String) (bytes : List Nat)
    (hdec : b64DecodeString s = .ok bytes) (hmod : bytes.length % w ≠ 0) :
    base64.deserialize w tryFrom s = .error "OutputSliceWouldHaveSlop" ∧
    base64_if_readable.deserialize true w tryFrom (.text s)
      = .error "OutputSliceWouldHaveSlop" := by
  have hcast : tryCastSliceBytes w bytes = .error "OutputSliceWouldHaveSlop" := by
    rw [tryCastSliceBytes, if_neg hw, if_neg hmod]
  constructor
  · simp only [base64.deserialize, hdec, hcast]
  · simp only [base64_if_readable.deserialize, if_true, ite_true, hdec, hcast]

/-- C4 witness: `"AA=="` decodes to a single byte, which is not a multiple of
a 2-byte element width. -/
theorem C4_length_mismatch_witness :
    base64.deserialize 2 Except.ok "AA==" = .error "OutputSliceWouldHaveSlop" ∧
    base64_if_readable.deserialize true 2 Except.ok (.text "AA==")
      = .error "OutputSliceWouldHaveSlop" :=
  C4_length_mismatch 2 (by decide) Except.ok "AA==" [0] rfl (by decide)

/-- C5: when the target type's own fallible construction rejects the decoded
sequence (e.g. a fixed-size array of the wrong length) or the decoded text,
deserialization fails with the target type's own error message. -/
theorem C5_target_construction {T S : Type} (w : Nat)
    (tryFrom : List Nat → Except String T) (s : String) (bytes elems : List Nat)
    (msg : String) (hdec : b64DecodeString s = .ok bytes)
    (hcast : tryCastSliceBytes w bytes = .ok elems)
    (htf : tryFrom elems = .error msg)
    (strTryFrom : List Nat → Except String S) (s2 : String) (bytes2 : List Nat)
    (msg2 : String) (hdec2 : b64DecodeString s2 = .ok bytes2)
    (hutf : utf8Check bytes2 = none) (htf2 : strTryFrom bytes2 = .error msg2) :
    base64.deserialize w tryFrom s = .error msg ∧
    base64_if_readable.deserialize true w tryFrom (.text s) = .error msg ∧
    base64_string.deserialize strTryFrom s2 = .error msg2 := by
  refine ⟨?_, ?_, ?_⟩
  · simp only [base64.deserialize, hdec, hcast, htf]
  · simp only [base64_if_readable.deserialize, if_true, ite_true, hdec, hcast, htf]
  · simp only [base64_string.deserialize, hdec2, stringFromUtf8, hutf, htf2]

/-- C5 witness: a fixed `[u8; 2]` target rejects the single decoded byte of
`"AA=="` with `TryFromSliceError`'s message, and a capacity-one string-like
target rejects the two decoded bytes of `"SGk="` with its own message. -/
theorem C5_target_construction_witness :
    base64.deserialize 1 (arrayTryFrom 2) "AA=="
      = .error "could not convert slice to array" ∧
    base64_if_readable.deserialize true 1 (arrayTryFrom 2) (.text "AA==")
      = .error "could not convert slice to array" ∧
    base64_string.deserialize
      (fun l => if l.length ≤ 1 then .ok l else .error "string too long") "SGk="
      = .error "string too long" :=
  C5_target_construction 1 (arrayTryFrom 2) "AA==" [0] [0]
    "could not convert slice to array" rfl rfl rfl
    (fun l => if l.length ≤ 1 then .ok l else .error "string too long")
    "SGk=" [72, 105] "string too long" rfl (by decide) rfl

/-- C7 counterexample: serializing the byte array `[123, 74]` emits `"e0o="`,
whose final character `=` is not one of the 64 URL-safe alphabet
characters. -/
theorem C7_counterexample :
    base64.serialize 1 [123, 74] = "e0o=" ∧
    '=' ∈ (base64.serialize 1 [123, 74]).data ∧
    '=' ∉ URL_SAFE_ALPHABET.data := by
  refine ⟨rfl, ?_, ?_⟩
  · decide
  · decide

/-- C7 (amended): the text emitted by each adaptor's textual path consists
only of URL-safe base64 alphabet characters and the padding character `=`. -/
theorem C7_alphabet {T : Type} (w : Nat) (item : List Nat)
    (borrow : T → List Nat) (it : T) (sbytes : List Nat)
    (hsb : ∀ b ∈ sbytes, b < 256) :
    (∀ c ∈ (base64.serialize w item).data, c ∈ URL_SAFE_ALPHABET.data ∨ c = '=') ∧
    (∀ s, base64_if_readable.serialize true w borrow it = .text s →
      ∀ c ∈ s.data, c ∈ URL_SAFE_ALPHABET.data ∨ c = '=') ∧
    (∀ c ∈ (base64_string.serialize sbytes).data, c ∈ URL_SAFE_ALPHABET.data ∨ c = '=') := by
  refine ⟨?_, ?_, ?_⟩
  · exact b64EncodeBytes_chars _ (mem_castSliceElems_lt w item)
  · intro s hs
    rw [base64_if_readable.serialize, if_pos rfl] at hs
    cases hs
    exact b64EncodeBytes_chars _ (mem_castSliceElems_lt w (borrow it))
  · exact b64EncodeBytes_chars _ hsb

/-- C7 witness: the amended alphabet law at the inputs of the crate's own
test (`[123, 74]` as elements, `"Hello, World"` as string bytes). -/
theorem C7_alphabet_witness :
    (∀ c ∈ (base64.serialize 1 [123, 74]).data, c ∈ URL_SAFE_ALPHABET.data ∨ c = '=') ∧
    (∀ s, base64_if_readable.serialize true 1 id [123, 74] = .text s →
      ∀ c ∈ s.data, c ∈ URL_SAFE_ALPHABET.data ∨ c = '=') ∧
    (∀ c ∈ (base64_string.serialize
        [72, 101, 108, 108, 111, 44, 32, 87, 111, 114, 108, 100]).data,
      c ∈ URL_SAFE_ALPHABET.data ∨ c = '=') :=
  C7_alphabet 1 [123, 74] id [123, 74]
    [72, 101, 108, 108, 111, 44, 32, 87, 111, 114, 108, 100] (by decide)

/-- C8: the string adaptor's deserialize performs base64 decoding, then UTF-8
validation, then the target type's fallible construction, surfacing each
step's failure as that step's error, and succeeds exactly when all three
steps succeed. -/
theorem C8_string_decode_steps {T : Type} (strTryFrom : List Nat → Except String T)
    (s : String) :
    (∀ e, b64DecodeString s = .error e →
      base64_string.deserialize strTryFrom s = .error e.display) ∧
    (∀ bytes err, b64DecodeString s = .ok bytes → utf8Check bytes = some err →
      base64_string.deserialize strTryFrom s = .error (utf8ErrorDisplay err)) ∧
    (∀ bytes m, b64DecodeString s = .ok bytes → utf8Check bytes = none →
      strTryFrom bytes = .error m →
      base64_string.deserialize strTryFrom s = .error m) ∧
    (∀ bytes v, b64DecodeString s = .ok bytes → utf8Check bytes = none →
      strTryFrom bytes = .ok v →
      base64_string.deserialize strTryFrom s = .ok v) ∧
    ((∃ v, base64_string.deserialize strTryFrom s = .ok v) ↔
      (∃ bytes, b64DecodeString s = .ok bytes ∧ utf8Check bytes = none ∧
        ∃ v, strTryFrom bytes = .ok v)) := by
  refine ⟨?_, ?_, ?_, ?_, ?_⟩
  · intro e he
    simp only [base64_string.deserialize, he]
  · intro bytes err hb herr
    simp only [base64_string.deserialize, hb, stringFromUtf8, herr]
  · intro bytes m hb hok htf
    simp only [base64_string.deserialize, hb, stringFromUtf8, hok, htf]
  · intro bytes v hb hok htf
    simp only [base64_string.deserialize, hb, stringFromUtf8, hok, htf]
  · constructor
    · rintro ⟨v, hv⟩
      match hd : b64DecodeString s with
      | .error e =>
        simp only [base64_string.deserialize, hd] at hv
        exact absurd hv (by simp)
      | .ok bytes =>
        match hu : utf8Check bytes with
        | some err =>
          simp only [base64_string.deserialize, hd, stringFromUtf8, hu] at hv
          exact absurd hv (by simp)
        | none =>
          simp only [base64_string.deserialize, hd, stringFromUtf8, hu] at hv
          exact ⟨bytes, rfl, hu, v, hv⟩
    · rintro ⟨bytes, hb, hok, v, htf⟩
      exact ⟨v, by simp only [base64_string.deserialize, hb, stringFromUtf8, hok, htf]⟩

/-- C8 witness: the four step outcomes at concrete inputs — invalid base64
`"!!"`, non-UTF-8 decoded bytes from `"_w=="`, a rejecting target at
`"SGk="`, and a successful decode of `"SGk="`. -/
theorem C8_string_decode_steps_witness :
    base64_string.deserialize (Except.ok : List Nat → Except String (List Nat)) "!!"
      = .error DecodeError.invalidPadding.display ∧
    base64_string.deserialize (Except.ok : List Nat → Except String (List Nat)) "_w=="
      = .error (utf8ErrorDisplay (0, some 1)) ∧
    base64_string.deserialize
      (fun l => if l.length ≤ 1 then .ok l else .error "string too long") "SGk="
      = .error "string too long" ∧
    base64_string.deserialize (Except.ok : List Nat → Except String (List Nat)) "SGk=" = .ok [72, 105] :=
  ⟨(C8_string_decode_steps Except.ok "!!").1 .invalidPadding rfl,
   (C8_string_decode_steps Except.ok "_w==").2.1 [255] (0, some 1) rfl (by decide),
   (C8_string_decode_steps
      (fun l => if l.length ≤ 1 then .ok l else .error "string too long") "SGk=").2.2.1
     [72, 105] "string too long" rfl (by decide) rfl,
   (C8_string_decode_steps Except.ok "SGk=").2.2.2.1 [72, 105] [72, 105] rfl
     (by decide) rfl⟩

/-- C9: the adaptors use the padded URL-safe engine — every emitted text has
length a multiple of 4 (canonical `=`-padding), and decoding rejects
alphabet-conformant but unpadded text (`"AA"`) as well as non-canonically
padded text (`"AB=="`, whose last symbol has non-zero trailing bits). -/
theorem C9_padded_engine :
    (∀ (w : Nat) (item : List Nat), (base64.serialize w item).length % 4 = 0) ∧
    (∀ sbytes : List Nat, (base64_string.serialize sbytes).length % 4 = 0) ∧
    (∀ c ∈ ("AA" : String).data, c ∈ URL_SAFE_ALPHABET.data) ∧
    base64.deserialize 1 (Except.ok : List Nat → Except String (List Nat)) "AA"
      = .error "AA is not a valid utf-8 string" ∧
    base64.deserialize 1 (Except.ok : List Nat → Except String (List Nat)) "AB=="
      = .error "AB== is not a valid utf-8 string" := by
  refine ⟨?_, ?_, ?_, ?_, ?_⟩
  · intro w item
    exact b64EncodeBytes_length_mod4 (castSliceElems w item)
  · intro sbytes
    exact b64EncodeBytes_length_mod4 sbytes
  · decide
  · rfl
  · rfl

/-- C9 witness: padded output length at the test byte array, and an alphabet
character of the rejected unpadded text. -/
theorem C9_padded_engine_witness :
    (base64.serialize 1 [123, 74]).length % 4 = 0 ∧ 'A' ∈ URL_SAFE_ALPHABET.data :=
  ⟨C9_padded_engine.1 1 [123, 74], C9_padded_engine.2.2.1 'A' (by decide)⟩
